import Mathlib

set_option maxHeartbeats 1000000

/-!
Shallow embedding of the PXE network boot loader (src/src/main.rs).

The loader talks to UEFI boot services (PXE base code protocol, page
allocator, configuration table, image loader).  Those firmware services are
modelled by an oracle environment `Env` (what the firmware would answer) and
an explicit firmware state `FwState` (PXE mode flags, byte memory, the
configuration table, an allocation cursor, and a trace of the firmware
operations that were invoked).  Each Rust function becomes a Lean function
`Env → args → FwState → Except Status α × FwState`, mirroring the Rust
control flow line by line; errors carry the state reached so far, exactly as
side effects already performed persist in the real program.
-/

namespace Bootloader

/-- UEFI status codes used by the boot loader; `other` stands for any further
firmware status code passed through unchanged. -/
inductive Status where
  | success
  | notFound
  | aborted
  | outOfResources
  | deviceError
  | invalidParameter
  | other (code : Nat)
  deriving DecidableEq, Repr

/-- Placement policy argument of `allocate_pages` (uefi `AllocateType`). -/
inductive AllocateType where
  | anyPages
  | maxAddress
  | address
  deriving DecidableEq, Repr

/-- Memory class argument of `allocate_pages` (uefi `MemoryType`). -/
inductive MemoryType where
  | loaderData
  | loaderCode
  | bootServicesData
  | otherType (code : Nat)
  deriving DecidableEq, Repr

/-- Firmware operations invoked by the loader, recorded in an event trace.
`download` is call-boundary instrumentation recording the arguments each
`download_file` invocation was made with; every other event is one firmware
service call (including the heap allocation of the transfer buffer). -/
inductive Event where
  | download (filename : String) (maxSizeBytes : Nat)
  | locateHandles
  | openProtocol (handle : Nat)
  | pxeStart (useIpv6 : Bool)
  | dhcp (sortOffers : Bool)
  | tftpGetFileSize (filename : String)
  | allocBuffer (size : Nat)
  | tftpReadFile (filename : String)
  | allocatePages (ty : AllocateType) (mt : MemoryType) (pages : Nat)
  | installConfigTable (guid : String) (ptr : Nat)
  | loadImage
  | setLoadOptions (opts : String) (numBytes : Nat)
  | startImage
  deriving DecidableEq, Repr

/-- The fixed-layout record registered for the kernel: `#[repr(C)] struct
LinuxEfiInitrd { base: usize, size: usize }`. -/
structure LinuxEfiInitrd where
  base : Nat
  size : Nat
  deriving DecidableEq, Repr

/-- Value of `const LINUX_EFI_INITRD_MEDIA_GUID` from the source. -/
def LINUX_EFI_INITRD_MEDIA_GUID : String := "5568e427-68fc-4f3d-ac74-ca555231cc68"

/-- UEFI page size (uefi `boot::PAGE_SIZE`). -/
def PAGE_SIZE : Nat := 4096

/-- Rust `usize::div_ceil` for positive divisors, in the equivalent closed
form `(a + b - 1) / b`. -/
def div_ceil (a b : Nat) : Nat := (a + b - 1) / b

/-- Oracle environment: the answers the firmware gives to each service call.
`allocOk n` tells whether the `n`-th page allocation of the run succeeds. -/
structure Env where
  handles : List Nat
  openOk : Nat → Bool
  pxeStarted : Bool
  startResult : Except Status Unit
  dhcpAckReceived : Bool
  dhcpResult : Except Status Unit
  ackYiAddr : Nat
  ackSiAddr : Nat
  tftpSize : String → Except Status Nat
  tftpRead : String → Except Status (List Nat)
  allocOk : Nat → Bool
  installTableResult : Except Status Unit
  loadImageResult : Except Status Nat
  loadedImageOpen : Nat → Except Status Unit
  startImageResult : Except Status Unit

/-- Mutable firmware state threaded through the run: PXE mode flags, byte
memory, typed record memory, the configuration table (GUID to pointer),
the fresh-page allocation cursor, the allocation counter, and the trace. -/
structure FwState where
  started : Bool
  dhcpAck : Bool
  mem : Nat → Nat
  records : Nat → Option LinuxEfiInitrd
  configTable : List (String × Nat)
  nextAddr : Nat
  allocCount : Nat
  trace : List Event

/-- Initial firmware state for a run in environment `env`. -/
def initState (env : Env) : FwState :=
  { started := env.pxeStarted
    dhcpAck := env.dhcpAckReceived
    mem := fun _ => 0
    records := fun _ => none
    configTable := []
    nextAddr := PAGE_SIZE
    allocCount := 0
    trace := [] }

/-- Record one firmware operation in the trace. -/
def emitS (s : FwState) (ev : Event) : FwState :=
  { s with trace := s.trace ++ [ev] }

/-- Model of `boot::allocate_pages`: fresh pages at the cursor, page-aligned,
never overlapping any earlier allocation; the oracle decides success. -/
def allocatePagesFw (env : Env) (ty : AllocateType) (mt : MemoryType) (pages : Nat)
    (s : FwState) : Except Status Nat × FwState :=
  let s := emitS s (.allocatePages ty mt pages)
  if env.allocOk s.allocCount then
    (.ok s.nextAddr,
      { s with nextAddr := s.nextAddr + pages * PAGE_SIZE, allocCount := s.allocCount + 1 })
  else
    (.error .outOfResources, { s with allocCount := s.allocCount + 1 })

/-- Model of `core::ptr::copy_nonoverlapping(data.as_ptr(), dst, data.len())`
on the byte memory. -/
def copyBytes (m : Nat → Nat) (dst : Nat) (data : List Nat) : Nat → Nat :=
  fun a => if dst ≤ a ∧ a < dst + data.length then data.getD (a - dst) 0 else m a

/-- The transfer buffer after `tftp_read_file` wrote `content` into the
zero-initialized buffer of length `size`. -/
def fillBuffer (size : Nat) (content : List Nat) : List Nat :=
  (List.range size).map (fun i => content.getD i 0)

/-- Loop of `find_pxebc_proto` over the located handle buffer: try to open each
handle exclusively, return the first success, `NOT_FOUND` when exhausted. -/
def findLoop (env : Env) (hs : List Nat) (s : FwState) : Except Status Nat × FwState :=
  match hs with
  | [] => (.error .notFound, s)
  | h :: rest =>
    let s := emitS s (.openProtocol h)
    if env.openOk h then (.ok h, s) else findLoop env rest s

/-- Model of `find_pxebc_proto`: locate all handles exposing the PXE base code
protocol (UEFI `locate_handle_buffer` fails with `NOT_FOUND` when there is
none), then return the first that can be opened exclusively. -/
def find_pxebc_proto (env : Env) (s : FwState) : Except Status Nat × FwState :=
  let s := emitS s .locateHandles
  if env.handles.isEmpty then (.error .notFound, s)
  else findLoop env env.handles s

/-- Model of `start_pxe_if_needed`: start the PXE base code (IPv4 only) unless the
mode already reports it started.  Firmware model: a successful start sets
the started flag in the mode structure. -/
def start_pxe_if_needed (env : Env) (s : FwState) : Except Status Unit × FwState :=
  if s.started then (.ok (), s)
  else
    let s := emitS s (.pxeStart false)
    match env.startResult with
    | .ok () => (.ok (), { s with started := true })
    | .error e => (.error e, s)

/-- Model of `perform_dhcp`: skip when the mode already holds a DHCP acknowledgment,
otherwise issue the broadcast DHCP request.  Firmware model: a successful
DHCP transaction records the acknowledgment in the mode structure. -/
def perform_dhcp (env : Env) (s : FwState) : Except Status Unit × FwState :=
  if s.dhcpAck then (.ok (), s)
  else
    let s := emitS s (.dhcp false)
    match env.dhcpResult with
    | .ok () => (.ok (), { s with dhcpAck := true })
    | .error e => (.error e, s)

/-- Model of `get_network_config`: read the assigned and server addresses out of the
last DHCP acknowledgment packet. -/
def get_network_config (env : Env) : Nat × Nat :=
  (env.ackYiAddr, env.ackSiAddr)

/-- Model of `download_file`: query the remote size (`NOT_FOUND` on failure, the
underlying status discarded), enforce the size cap (`ABORTED` when the size
strictly exceeds it), then allocate a zeroed buffer of the reported size and
transfer the file into it (transfer failure passed through). -/
def download_file (env : Env) (filename : String) (max_size_bytes : Nat)
    (s : FwState) : Except Status (List Nat) × FwState :=
  let s := emitS s (.download filename max_size_bytes)
  let s := emitS s (.tftpGetFileSize filename)
  match env.tftpSize filename with
  | .error _ => (.error .notFound, s)
  | .ok size =>
    if size > max_size_bytes then (.error .aborted, s)
    else
      let s := emitS s (.allocBuffer size)
      let s := emitS s (.tftpReadFile filename)
      match env.tftpRead filename with
      | .error e => (.error e, s)
      | .ok content => (.ok (fillBuffer size content), s)

/-- Model of `alloc_pages_and_copy`: allocate `ceil(len / PAGE_SIZE)` pages of
`LOADER_DATA` anywhere, then copy the buffer to the region's start. -/
def alloc_pages_and_copy (env : Env) (data : List Nat) (s : FwState) :
    Except Status Nat × FwState :=
  let pages := div_ceil data.length PAGE_SIZE
  match allocatePagesFw env .anyPages .loaderData pages s with
  | (.error e, s) => (.error e, s)
  | (.ok addr, s) =>
    (.ok addr, { s with mem := copyBytes s.mem addr data })

/-- Model of `install_initrd_config_table`: allocate one `LOADER_DATA` page, write a
`LinuxEfiInitrd { base, size }` record into it, and install a pointer to it
into the configuration table under `LINUX_EFI_INITRD_MEDIA_GUID`.  The
`install_configuration_table` call itself is fallible (the oracle
`installTableResult` decides); on failure the underlying status is passed
through via `map_err(|e| e.status())` and no table entry is added, while the
page allocation and the record write have already happened. -/
def install_initrd_config_table (env : Env) (base : Nat) (size : Nat)
    (s : FwState) : Except Status Unit × FwState :=
  match allocatePagesFw env .anyPages .loaderData 1 s with
  | (.error e, s) => (.error e, s)
  | (.ok info_addr, s) =>
    let info_dat : LinuxEfiInitrd := { base := base, size := size }
    let s := { s with records := fun a => if a = info_addr then some info_dat else s.records a }
    let s := emitS s (.installConfigTable LINUX_EFI_INITRD_MEDIA_GUID info_addr)
    match env.installTableResult with
    | .error e => (.error e, s)
    | .ok () =>
      (.ok (), { s with configTable := (LINUX_EFI_INITRD_MEDIA_GUID, info_addr) :: s.configTable })

/-- Value of `static KERNEL_OPTS`: the compile-time constant kernel command line. -/
def KERNEL_OPTS : String :=
  "init=/nix/store/pg9asbr6hx4515is7akx9ypygg28ama9-nixos-system-nixos-kexec-25.05.20251019.33c6dca/init loglevel=4 efi=debug"

/-- Byte length of `KERNEL_OPTS` as a null-terminated UCS-2 string
(`CStr16::num_bytes`). -/
def KERNEL_OPTS_NUM_BYTES : Nat := 2 * (KERNEL_OPTS.length + 1)

/-- Model of `setup_kernel_options`: open the `LoadedImage` protocol on the kernel
handle and attach the constant command line to it. -/
def setup_kernel_options (env : Env) (handle : Nat) (s : FwState) :
    Except Status Unit × FwState :=
  match env.loadedImageOpen handle with
  | .error e => (.error e, s)
  | .ok () =>
    (.ok (), emitS s (.setLoadOptions KERNEL_OPTS KERNEL_OPTS_NUM_BYTES))

/-- Model of `load_and_start_kernel_from_pages`: stage the kernel buffer into fresh
pages, load an image from that memory, attach the options, start it. -/
def load_and_start_kernel_from_pages (env : Env) (kernel_data : List Nat)
    (s : FwState) : Except Status Unit × FwState :=
  match alloc_pages_and_copy env kernel_data s with
  | (.error e, s) => (.error e, s)
  | (.ok _kernel_base, s) =>
    let s := emitS s .loadImage
    match env.loadImageResult with
    | .error e => (.error e, s)
    | .ok kernel_handle =>
      match setup_kernel_options env kernel_handle s with
      | (.error e, s) => (.error e, s)
      | (.ok (), s) =>
        let s := emitS s .startImage
        match env.startImageResult with
        | .error e => (.error e, s)
        | .ok () => (.ok (), s)

/-- Model of `run`: the top-level pipeline, halting at the first error. -/
def run (env : Env) (s : FwState) : Except Status Status × FwState :=
  match find_pxebc_proto env s with
  | (.error e, s) => (.error e, s)
  | (.ok _bc, s) =>
    match start_pxe_if_needed env s with
    | (.error e, s) => (.error e, s)
    | (.ok (), s) =>
      match perform_dhcp env s with
      | (.error e, s) => (.error e, s)
      | (.ok (), s) =>
        let _cfg := get_network_config env
        match download_file env "bzImage" (32 <<< 20) s with
        | (.error e, s) => (.error e, s)
        | (.ok kernel_data, s) =>
          match download_file env "initrd" (1024 <<< 20) s with
          | (.error e, s) => (.error e, s)
          | (.ok initrd_data, s) =>
            match alloc_pages_and_copy env initrd_data s with
            | (.error e, s) => (.error e, s)
            | (.ok initrd_base, s) =>
              match install_initrd_config_table env initrd_base initrd_data.length s with
              | (.error e, s) => (.error e, s)
              | (.ok (), s) =>
                match load_and_start_kernel_from_pages env kernel_data s with
                | (.error e, s) => (.error e, s)
                | (.ok (), s) => (.ok .success, s)

/-- Lookup in the configuration table registry: pointer installed under a
given identifier (most recent installation wins). -/
def lookupConfigTable (s : FwState) (guid : String) : Option Nat :=
  (s.configTable.find? (fun p => p.1 = guid)).map Prod.snd

/-- Predicate `TraceDelta s t P`: state `t` was reached from `s` by appending trace
events, all of which satisfy `P`. -/
def TraceDelta (s t : FwState) (P : Event → Prop) : Prop :=
  ∃ d, t.trace = s.trace ++ d ∧ ∀ ev ∈ d, P ev

/-- The size-policy and command-line constants the top-level `run` is allowed
to use: a download of `bzImage` is capped at 32 MiB, a download of `initrd`
at 1 GiB, and load options are always the fixed `KERNEL_OPTS` string. -/
def policyEvent : Event → Prop
  | .download f m => (f = "bzImage" ∧ m = 32 <<< 20) ∨ (f = "initrd" ∧ m = 1024 <<< 20)
  | .setLoadOptions o n => o = KERNEL_OPTS ∧ n = KERNEL_OPTS_NUM_BYTES
  | _ => True

/-- Pipeline stage that emits an event, numbered in `run` order:
1 protocol discovery, 2 PXE start, 3 DHCP, 4 kernel fetch, 5 ramdisk fetch,
6 page allocation (staging is the first allocator use; the registration and
loader allocations are later but share the event shape, so they get the
earliest stage), 7 configuration-table installation, 8 image load,
9 options attach, 10 image start.  A trace bounded by stage `k` therefore
shows that no pipeline step after stage `k` ever executed its firmware
calls. -/
def eventRank : Event → Nat
  | .locateHandles => 1
  | .openProtocol _ => 1
  | .pxeStart _ => 2
  | .dhcp _ => 3
  | .download f _ => if f = "bzImage" then 4 else 5
  | .tftpGetFileSize f => if f = "bzImage" then 4 else 5
  | .tftpReadFile f => if f = "bzImage" then 4 else 5
  | .allocBuffer _ => 4
  | .allocatePages _ _ _ => 6
  | .installConfigTable _ _ => 7
  | .loadImage => 8
  | .setLoadOptions _ _ => 9
  | .startImage => 10

/-- A firmware environment in which every service call succeeds and the two
remote files are tiny. -/
def envAllOk : Env :=
  { handles := [1]
    openOk := fun _ => true
    pxeStarted := true
    startResult := .ok ()
    dhcpAckReceived := true
    dhcpResult := .ok ()
    ackYiAddr := 167772687
    ackSiAddr := 167772674
    tftpSize := fun f => if f = "bzImage" then .ok 2 else if f = "initrd" then .ok 3 else .error .deviceError
    tftpRead := fun f =>
      if f = "bzImage" then .ok [17, 18]
      else if f = "initrd" then .ok [5, 6, 7] else .error .deviceError
    allocOk := fun _ => true
    installTableResult := .ok ()
    loadImageResult := .ok 42
    loadedImageOpen := fun _ => .ok ()
    startImageResult := .ok () }

/-- Like `envAllOk`, but the kernel file is reported as 40 MiB. -/
def envKernelTooBig : Env :=
  { envAllOk with tftpSize := fun f => if f = "bzImage" then .ok (40 <<< 20) else .ok 3 }

/-- Like `envAllOk`, but every size query fails. -/
def envQueryFail : Env :=
  { envAllOk with tftpSize := fun _ => .error (.other 7) }

/-- Like `envAllOk`, but no handle can be opened exclusively. -/
def envNoOpen : Env :=
  { envAllOk with handles := [4, 5], openOk := fun _ => false }

/-- Like `envAllOk`, but installing the configuration table fails. -/
def envInstallFail : Env :=
  { envAllOk with installTableResult := .error .outOfResources }

/-! Basic facts about the state helpers. -/

@[simp] theorem emitS_trace (s : FwState) (ev : Event) :
    (emitS s ev).trace = s.trace ++ [ev] := rfl

@[simp] theorem emitS_mem (s : FwState) (ev : Event) : (emitS s ev).mem = s.mem := rfl

@[simp] theorem emitS_records (s : FwState) (ev : Event) :
    (emitS s ev).records = s.records := rfl

@[simp] theorem emitS_configTable (s : FwState) (ev : Event) :
    (emitS s ev).configTable = s.configTable := rfl

@[simp] theorem emitS_nextAddr (s : FwState) (ev : Event) :
    (emitS s ev).nextAddr = s.nextAddr := rfl

@[simp] theorem emitS_allocCount (s : FwState) (ev : Event) :
    (emitS s ev).allocCount = s.allocCount := rfl

@[simp] theorem emitS_dhcpAck (s : FwState) (ev : Event) :
    (emitS s ev).dhcpAck = s.dhcpAck := rfl

@[simp] theorem emitS_started (s : FwState) (ev : Event) :
    (emitS s ev).started = s.started := rfl

@[simp] theorem fillBuffer_length (n : Nat) (c : List Nat) :
    (fillBuffer n c).length = n := by
  simp [fillBuffer]

theorem traceDelta_refl (s : FwState) (P : Event → Prop) : TraceDelta s s P :=
  ⟨[], by simp⟩

theorem traceDelta_trans {s t u : FwState} {P : Event → Prop}
    (h1 : TraceDelta s t P) (h2 : TraceDelta t u P) : TraceDelta s u P := by
  obtain ⟨d1, e1, p1⟩ := h1
  obtain ⟨d2, e2, p2⟩ := h2
  refine ⟨d1 ++ d2, by simp [e2, e1], ?_⟩
  intro ev hev
  rcases List.mem_append.1 hev with h | h
  · exact p1 ev h
  · exact p2 ev h

theorem traceDelta_mono {s t : FwState} {P Q : Event → Prop}
    (h : TraceDelta s t P) (pq : ∀ ev, P ev → Q ev) : TraceDelta s t Q := by
  obtain ⟨d, e, p⟩ := h
  exact ⟨d, e, fun ev hev => pq ev (p ev hev)⟩

theorem traceDelta_emit {P : Event → Prop} (s : FwState) (ev : Event) (h : P ev) :
    TraceDelta s (emitS s ev) P :=
  ⟨[ev], rfl, by simp [h]⟩

theorem traceDelta_mem {s t : FwState} {P : Event → Prop} {ev : Event}
    (h : TraceDelta s t P) (hm : ev ∈ s.trace) : ev ∈ t.trace := by
  obtain ⟨d, e, _⟩ := h
  simp [e, hm]

theorem traceDelta_of_eq {s t : FwState} {P : Event → Prop}
    (h : t.trace = s.trace) : TraceDelta s t P :=
  ⟨[], by simp [h], by simp⟩

/-! Trace characterisations of the individual firmware interactions. -/

theorem allocatePagesFw_trace (env : Env) (ty : AllocateType) (mt : MemoryType)
    (pages : Nat) (s : FwState) :
    (allocatePagesFw env ty mt pages s).2.trace
      = s.trace ++ [Event.allocatePages ty mt pages] := by
  simp only [allocatePagesFw]
  split <;> simp

theorem alloc_pages_and_copy_trace (env : Env) (data : List Nat) (s : FwState) :
    (alloc_pages_and_copy env data s).2.trace
      = s.trace ++ [Event.allocatePages .anyPages .loaderData (div_ceil data.length PAGE_SIZE)] := by
  have h := allocatePagesFw_trace env .anyPages .loaderData (div_ceil data.length PAGE_SIZE) s
  simp only [alloc_pages_and_copy]
  split
  · rename_i e s1 heq
    rw [heq] at h
    exact h
  · rename_i addr s1 heq
    rw [heq] at h
    exact h

theorem alloc_pages_and_copy_traceDelta (env : Env) (data : List Nat) (s : FwState) :
    TraceDelta s (alloc_pages_and_copy env data s).2
      (fun ev => ∃ p, ev = Event.allocatePages .anyPages .loaderData p) := by
  refine ⟨[Event.allocatePages .anyPages .loaderData (div_ceil data.length PAGE_SIZE)],
    alloc_pages_and_copy_trace env data s, ?_⟩
  simp

theorem findLoop_traceDelta (env : Env) (hs : List Nat) (s : FwState) :
    TraceDelta s (findLoop env hs s).2 (fun ev => ∃ h, ev = Event.openProtocol h) := by
  induction hs generalizing s with
  | nil => exact traceDelta_refl _ _
  | cons h rest ih =>
    simp only [findLoop]
    split
    · exact traceDelta_emit _ _ ⟨h, rfl⟩
    · exact traceDelta_trans (traceDelta_emit _ _ ⟨h, rfl⟩) (ih _)

theorem find_pxebc_proto_traceDelta (env : Env) (s : FwState) :
    TraceDelta s (find_pxebc_proto env s).2
      (fun ev => ev = Event.locateHandles ∨ ∃ h, ev = Event.openProtocol h) := by
  simp only [find_pxebc_proto]
  split
  · exact traceDelta_emit _ _ (Or.inl rfl)
  · exact traceDelta_trans (traceDelta_emit _ _ (Or.inl rfl))
      (traceDelta_mono (findLoop_traceDelta env env.handles _) (fun ev h => Or.inr h))

theorem start_pxe_if_needed_traceDelta (env : Env) (s : FwState) :
    TraceDelta s (start_pxe_if_needed env s).2 (fun ev => ev = Event.pxeStart false) := by
  simp only [start_pxe_if_needed]
  split
  · exact traceDelta_refl _ _
  · split
    · exact ⟨[Event.pxeStart false], by simp [emitS], by simp⟩
    · exact traceDelta_emit _ _ rfl

theorem perform_dhcp_traceDelta (env : Env) (s : FwState) :
    TraceDelta s (perform_dhcp env s).2 (fun ev => ev = Event.dhcp false) := by
  simp only [perform_dhcp]
  split
  · exact traceDelta_refl _ _
  · split
    · exact ⟨[Event.dhcp false], by simp [emitS], by simp⟩
    · exact traceDelta_emit _ _ rfl

theorem download_file_traceDelta (env : Env) (f : String) (m : Nat) (s : FwState) :
    TraceDelta s (download_file env f m s).2
      (fun ev => ev = Event.download f m ∨ ev = Event.tftpGetFileSize f
        ∨ (∃ k, ev = Event.allocBuffer k) ∨ ev = Event.tftpReadFile f) := by
  simp only [download_file]
  split
  · exact traceDelta_trans (traceDelta_emit _ _ (Or.inl rfl))
      (traceDelta_emit _ _ (Or.inr (Or.inl rfl)))
  · rename_i size _
    split
    · exact traceDelta_trans (traceDelta_emit _ _ (Or.inl rfl))
        (traceDelta_emit _ _ (Or.inr (Or.inl rfl)))
    · have base : TraceDelta s (emitS (emitS (emitS (emitS s (.download f m))
          (.tftpGetFileSize f)) (.allocBuffer size)) (.tftpReadFile f))
          (fun ev => ev = Event.download f m ∨ ev = Event.tftpGetFileSize f
            ∨ (∃ k, ev = Event.allocBuffer k) ∨ ev = Event.tftpReadFile f) := by
        refine ⟨[.download f m, .tftpGetFileSize f, .allocBuffer size, .tftpReadFile f], by simp, ?_⟩
        simp
      split
      · exact base
      · exact base

theorem download_file_mem_download (env : Env) (f : String) (m : Nat) (s : FwState) :
    Event.download f m ∈ (download_file env f m s).2.trace := by
  simp only [download_file]
  split
  · simp
  · split
    · simp
    · split <;> simp

theorem install_initrd_config_table_traceDelta (env : Env) (base size : Nat) (s : FwState) :
    TraceDelta s (install_initrd_config_table env base size s).2
      (fun ev => ev = Event.allocatePages .anyPages .loaderData 1
        ∨ ∃ p, ev = Event.installConfigTable LINUX_EFI_INITRD_MEDIA_GUID p) := by
  have h := allocatePagesFw_trace env .anyPages .loaderData 1 s
  simp only [install_initrd_config_table]
  split
  · rename_i e s1 heq
    rw [heq] at h
    exact ⟨[Event.allocatePages .anyPages .loaderData 1], h, by simp⟩
  · rename_i addr s1 heq
    rw [heq] at h
    have h2 : s1.trace = s.trace ++ [Event.allocatePages .anyPages .loaderData 1] := h
    split
    · refine ⟨[Event.allocatePages .anyPages .loaderData 1,
        Event.installConfigTable LINUX_EFI_INITRD_MEDIA_GUID addr], ?_, by simp⟩
      simp [emitS, h2]
    · refine ⟨[Event.allocatePages .anyPages .loaderData 1,
        Event.installConfigTable LINUX_EFI_INITRD_MEDIA_GUID addr], ?_, by simp⟩
      simp [emitS, h2]

theorem setup_kernel_options_traceDelta (env : Env) (handle : Nat) (s : FwState) :
    TraceDelta s (setup_kernel_options env handle s).2
      (fun ev => ev = Event.setLoadOptions KERNEL_OPTS KERNEL_OPTS_NUM_BYTES) := by
  simp only [setup_kernel_options]
  split
  · exact traceDelta_refl _ _
  · exact traceDelta_emit _ _ rfl

theorem load_and_start_traceDelta (env : Env) (kernel_data : List Nat) (s : FwState) :
    TraceDelta s (load_and_start_kernel_from_pages env kernel_data s).2
      (fun ev => (∃ p, ev = Event.allocatePages .anyPages .loaderData p)
        ∨ ev = Event.loadImage
        ∨ ev = Event.setLoadOptions KERNEL_OPTS KERNEL_OPTS_NUM_BYTES
        ∨ ev = Event.startImage) := by
  simp only [load_and_start_kernel_from_pages]
  split
  · rename_i e s1 heq
    have h := alloc_pages_and_copy_traceDelta env kernel_data s
    rw [heq] at h
    exact traceDelta_mono h (fun ev hv => Or.inl hv)
  · rename_i addr s1 heq
    have h1 : TraceDelta s s1 (fun ev => (∃ p, ev = Event.allocatePages .anyPages .loaderData p)
        ∨ ev = Event.loadImage
        ∨ ev = Event.setLoadOptions KERNEL_OPTS KERNEL_OPTS_NUM_BYTES
        ∨ ev = Event.startImage) := by
      have h := alloc_pages_and_copy_traceDelta env kernel_data s
      rw [heq] at h
      exact traceDelta_mono h (fun ev hv => Or.inl hv)
    have h2 := traceDelta_trans h1 (traceDelta_emit s1 Event.loadImage (Or.inr (Or.inl rfl)))
    split
    · exact h2
    · rename_i kh hL
      split
      · rename_i e s2 heq2
        have h3 := setup_kernel_options_traceDelta env kh (emitS s1 .loadImage)
        rw [heq2] at h3
        exact traceDelta_trans h2 (traceDelta_mono h3 (fun ev hv => Or.inr (Or.inr (Or.inl hv))))
      · rename_i s2 heq2
        have h3 := setup_kernel_options_traceDelta env kh (emitS s1 .loadImage)
        rw [heq2] at h3
        have h4 := traceDelta_trans h2
          (traceDelta_mono h3 (fun ev hv => Or.inr (Or.inr (Or.inl hv))))
        have h5 := traceDelta_trans h4
          (traceDelta_emit s2 Event.startImage (Or.inr (Or.inr (Or.inr rfl))))
        split
        · exact h5
        · exact h5

/-! Claims about `download_file`. -/

/-- C1: for every remote file whose reported size strictly exceeds the
`max_size_bytes` argument, `download_file` returns the too-large policy error
(represented by the `ABORTED` status) right after the size query: the new
trace events are exactly the call itself and the size query, so the transfer
operation is never invoked and no buffer is allocated, and the page allocator
is untouched. -/
theorem download_file_too_large_no_transfer (env : Env) (f : String) (m n : Nat)
    (s : FwState) (h1 : env.tftpSize f = .ok n) (h2 : n > m) :
    (download_file env f m s).1 = .error .aborted
    ∧ (download_file env f m s).2.trace
        = s.trace ++ [Event.download f m, Event.tftpGetFileSize f]
    ∧ Event.tftpReadFile f ∉ List.drop s.trace.length (download_file env f m s).2.trace
    ∧ (∀ k, Event.allocBuffer k ∉ List.drop s.trace.length (download_file env f m s).2.trace)
    ∧ (download_file env f m s).2.allocCount = s.allocCount := by
  have key : download_file env f m s
      = (.error .aborted, emitS (emitS s (.download f m)) (.tftpGetFileSize f)) := by
    simp only [download_file, h1]
    rw [if_pos h2]
  have htr : (emitS (emitS s (.download f m)) (.tftpGetFileSize f)).trace
      = s.trace ++ [Event.download f m, Event.tftpGetFileSize f] := by
    simp [emitS]
  rw [key]
  refine ⟨rfl, htr, ?_, ?_, rfl⟩
  · rw [htr, List.drop_left]
    simp
  · intro k
    rw [htr, List.drop_left]
    simp

/-- C1 witness: a 40 MiB kernel against the 32 MiB cap is rejected with
`ABORTED`. -/
theorem download_file_too_large_no_transfer_witness :
    envKernelTooBig.tftpSize "bzImage" = .ok (40 <<< 20)
    ∧ 40 <<< 20 > 32 <<< 20
    ∧ (download_file envKernelTooBig "bzImage" (32 <<< 20)
        (initState envKernelTooBig)).1 = .error .aborted :=
  ⟨rfl, by decide,
    (download_file_too_large_no_transfer envKernelTooBig "bzImage" (32 <<< 20) (40 <<< 20)
      (initState envKernelTooBig) rfl (by decide)).1⟩

/-- C9: the cap is strict at the boundary: when the reported size equals the
`max_size_bytes` argument exactly, `download_file` does not take the
too-large error path; it allocates a transfer buffer of exactly the reported
size, issues the transfer, and returns the transfer's outcome. -/
theorem download_file_boundary_equal (env : Env) (f : String) (max : Nat)
    (s : FwState) (h1 : env.tftpSize f = .ok max) :
    (download_file env f max s).2.trace
      = s.trace ++ [Event.download f max, Event.tftpGetFileSize f,
          Event.allocBuffer max, Event.tftpReadFile f]
    ∧ (∀ c, env.tftpRead f = .ok c →
        (download_file env f max s).1 = .ok (fillBuffer max c)
        ∧ (fillBuffer max c).length = max)
    ∧ (∀ e, env.tftpRead f = .error e → (download_file env f max s).1 = .error e) := by
  have hnot : ¬ (max > max) := lt_irrefl max
  refine ⟨?_, ?_, ?_⟩
  · simp only [download_file, h1]
    rw [if_neg hnot]
    cases env.tftpRead f <;> simp [emitS]
  · intro c hc
    simp only [download_file, h1, hc]
    rw [if_neg hnot]
    simp
  · intro e he
    simp only [download_file, h1, he]
    rw [if_neg hnot]

/-- C9 witness: a 2-byte file against a 2-byte cap is transferred. -/
theorem download_file_boundary_equal_witness :
    envAllOk.tftpSize "bzImage" = .ok 2
    ∧ envAllOk.tftpRead "bzImage" = .ok [17, 18]
    ∧ (download_file envAllOk "bzImage" 2 (initState envAllOk)).1
        = .ok (fillBuffer 2 [17, 18]) :=
  ⟨rfl, rfl,
    ((download_file_boundary_equal envAllOk "bzImage" 2 (initState envAllOk) rfl).2.1
      [17, 18] rfl).1⟩

/-- C10: `download_file` collapses the error taxonomy onto raw status codes:
the too-large failure is returned as the generic `ABORTED` status, every size
query failure is mapped to `NOT_FOUND` whatever the underlying firmware
status was, and a transfer failure passes the underlying status through
(so a transfer that fails with `ABORTED` is indistinguishable from the
too-large rejection). -/
theorem download_file_status_collapse (env : Env) (f : String) (m : Nat) (s : FwState) :
    (∀ e, env.tftpSize f = .error e → (download_file env f m s).1 = .error .notFound)
    ∧ (∀ n, env.tftpSize f = .ok n → n > m → (download_file env f m s).1 = .error .aborted)
    ∧ (∀ n e, env.tftpSize f = .ok n → ¬ n > m → env.tftpRead f = .error e →
        (download_file env f m s).1 = .error e) := by
  refine ⟨?_, ?_, ?_⟩
  · intro e he
    simp only [download_file, he]
  · intro n hn hgt
    simp only [download_file, hn]
    rw [if_pos hgt]
  · intro n e hn hle he
    simp only [download_file, hn, he]
    rw [if_neg hle]

/-- C10 witness: a size query failing with an arbitrary firmware status is
reported as `NOT_FOUND`. -/
theorem download_file_status_collapse_witness :
    envQueryFail.tftpSize "initrd" = .error (.other 7)
    ∧ (download_file envQueryFail "initrd" 9 (initState envQueryFail)).1
        = .error .notFound :=
  ⟨rfl,
    (download_file_status_collapse envQueryFail "initrd" 9 (initState envQueryFail)).1
      (.other 7) rfl⟩

/-! Claims about the memory stager and the ramdisk registration. -/

theorem copyBytes_in (m : Nat → Nat) (dst : Nat) (data : List Nat) (i : Nat)
    (h : i < data.length) : copyBytes m dst data (dst + i) = data.getD i 0 := by
  have hc : dst ≤ dst + i ∧ dst + i < dst + data.length :=
    ⟨Nat.le_add_right dst i, Nat.add_lt_add_left h dst⟩
  rw [copyBytes, if_pos hc, Nat.add_sub_cancel_left]

theorem copyBytes_below (m : Nat → Nat) (dst : Nat) (data : List Nat) (a : Nat)
    (h : a < dst) : copyBytes m dst data a = m a := by
  rw [copyBytes, if_neg]
  rintro ⟨h1, -⟩
  omega

/-- Success case of the page-allocator model: the returned region starts at
the allocation cursor (hence is disjoint from every earlier allocation), the
cursor moves past it, and nothing else in the state changes but the trace. -/
theorem allocatePagesFw_ok (env : Env) (ty : AllocateType) (mt : MemoryType)
    (pages : Nat) (s : FwState) (addr : Nat) (s1 : FwState)
    (h : allocatePagesFw env ty mt pages s = (.ok addr, s1)) :
    addr = s.nextAddr ∧ s1.mem = s.mem ∧ s1.nextAddr = s.nextAddr + pages * PAGE_SIZE
    ∧ s1.allocCount = s.allocCount + 1 ∧ s1.records = s.records
    ∧ s1.configTable = s.configTable
    ∧ s1.trace = s.trace ++ [Event.allocatePages ty mt pages] := by
  simp only [allocatePagesFw] at h
  split at h
  · injection h with h1 h2
    injection h1 with h1
    subst h2
    exact ⟨h1.symm, rfl, rfl, rfl, rfl, rfl, by simp [emitS]⟩
  · exact absurd h (by simp)

/-- C3: whenever `alloc_pages_and_copy` succeeds, the staged byte range
`[base, base + data.length)` equals the source buffer byte for byte, and the
destination is a fresh allocation: it starts at the allocation cursor, past
every earlier allocation, and no byte below the region is modified (the copy
is non-overlapping). -/
theorem alloc_pages_and_copy_roundtrip (env : Env) (data : List Nat) (s : FwState)
    (base : Nat) (h : (alloc_pages_and_copy env data s).1 = .ok base) :
    (∀ i, i < data.length →
        (alloc_pages_and_copy env data s).2.mem (base + i) = data.getD i 0)
    ∧ base = s.nextAddr
    ∧ (∀ a, a < base → (alloc_pages_and_copy env data s).2.mem a = s.mem a) := by
  revert h
  simp only [alloc_pages_and_copy]
  split
  · rename_i e s1 heq
    intro h
    exact absurd h (by simp)
  · rename_i addr s1 heq
    intro h
    have hb : addr = base := by
      simpa using h
    obtain ⟨ha, hmem, -, -, -, -, -⟩ :=
      allocatePagesFw_ok env .anyPages .loaderData (div_ceil data.length PAGE_SIZE) s addr s1 heq
    subst hb
    refine ⟨?_, ha, ?_⟩
    · intro i hi
      show copyBytes s1.mem addr data (addr + i) = data.getD i 0
      exact copyBytes_in s1.mem addr data i hi
    · intro a halt
      show copyBytes s1.mem addr data a = s.mem a
      rw [copyBytes_below s1.mem addr data a halt, hmem]

/-- C3 witness: staging `[5, 6, 7]` in the all-success environment places the
bytes at the fresh region starting at address 4096. -/
theorem alloc_pages_and_copy_roundtrip_witness :
    (alloc_pages_and_copy envAllOk [5, 6, 7] (initState envAllOk)).1 = .ok 4096
    ∧ (alloc_pages_and_copy envAllOk [5, 6, 7] (initState envAllOk)).2.mem 4097 = 6 :=
  ⟨rfl,
    (alloc_pages_and_copy_roundtrip envAllOk [5, 6, 7] (initState envAllOk) 4096 rfl).1
      1 (by decide)⟩

/-- C7: every `alloc_pages_and_copy` call requests exactly
`ceil(data.length / PAGE_SIZE)` pages — `div_ceil data.length PAGE_SIZE`
pages cover the buffer and are the least such number of pages — with the
any-pages placement policy and the `LOADER_DATA` memory class. -/
theorem alloc_pages_and_copy_page_count (env : Env) (data : List Nat) (s : FwState) :
    (alloc_pages_and_copy env data s).2.trace
      = s.trace ++ [Event.allocatePages .anyPages .loaderData (div_ceil data.length PAGE_SIZE)]
    ∧ data.length ≤ div_ceil data.length PAGE_SIZE * PAGE_SIZE
    ∧ div_ceil data.length PAGE_SIZE * PAGE_SIZE < data.length + PAGE_SIZE := by
  refine ⟨alloc_pages_and_copy_trace env data s, ?_, ?_⟩ <;>
  · simp only [div_ceil, PAGE_SIZE]
    omega

/-- Success case of the ramdisk registration: the configuration table maps
the fixed identifier to the freshly allocated info page, and that page holds
the two-field record with exactly the arguments that were passed. -/
theorem install_ok_readback (env : Env) (base size : Nat) (s : FwState)
    (h : (install_initrd_config_table env base size s).1 = .ok ()) :
    ∃ p, lookupConfigTable (install_initrd_config_table env base size s).2
          LINUX_EFI_INITRD_MEDIA_GUID = some p
      ∧ (install_initrd_config_table env base size s).2.records p
          = some { base := base, size := size } := by
  revert h
  simp only [install_initrd_config_table]
  split
  · rename_i e s1 heq
    intro h
    exact absurd h (by simp)
  · rename_i addr s1 heq
    split
    · intro h
      exact absurd h (by simp)
    · intro h
      refine ⟨addr, ?_, ?_⟩
      · have hfind : List.find? (fun p => decide (p.1 = LINUX_EFI_INITRD_MEDIA_GUID))
            ((LINUX_EFI_INITRD_MEDIA_GUID, addr) :: s1.configTable)
            = some (LINUX_EFI_INITRD_MEDIA_GUID, addr) :=
          List.find?_cons_of_pos _ (by simp)
        simp [lookupConfigTable, emitS, hfind]
      · simp [emitS]

/-- C2: after `install_initrd_config_table` succeeds for a staged region
(the call `run` makes: the region's base address and the ramdisk's original
byte length `data.length`, not the page-rounded allocation size), the
configuration table maps the fixed initrd identifier to a pointer whose
record — the two-field `LinuxEfiInitrd` structure — holds exactly that base
address and that original byte length. -/
theorem install_initrd_config_table_readback (env : Env) (data : List Nat)
    (s : FwState) (base : Nat)
    (_h1 : (alloc_pages_and_copy env data s).1 = .ok base)
    (h2 : (install_initrd_config_table env base data.length
        (alloc_pages_and_copy env data s).2).1 = .ok ()) :
    ∃ p, lookupConfigTable
          (install_initrd_config_table env base data.length
            (alloc_pages_and_copy env data s).2).2 LINUX_EFI_INITRD_MEDIA_GUID = some p
      ∧ (install_initrd_config_table env base data.length
          (alloc_pages_and_copy env data s).2).2.records p
          = some { base := base, size := data.length } :=
  install_ok_readback env base data.length _ h2

/-- C2 witness: registering the 2-byte ramdisk `[7, 9]` staged at 4096 makes
the table entry point at a record with base 4096 and size 2. -/
theorem install_initrd_config_table_readback_witness :
    (alloc_pages_and_copy envAllOk [7, 9] (initState envAllOk)).1 = .ok 4096
    ∧ (install_initrd_config_table envAllOk 4096 2
        (alloc_pages_and_copy envAllOk [7, 9] (initState envAllOk)).2).1 = .ok ()
    ∧ ∃ p, lookupConfigTable
          (install_initrd_config_table envAllOk 4096 2
            (alloc_pages_and_copy envAllOk [7, 9] (initState envAllOk)).2).2
          LINUX_EFI_INITRD_MEDIA_GUID = some p
        ∧ (install_initrd_config_table envAllOk 4096 2
            (alloc_pages_and_copy envAllOk [7, 9] (initState envAllOk)).2).2.records p
            = some { base := 4096, size := 2 } :=
  ⟨rfl, rfl,
    install_initrd_config_table_readback envAllOk [7, 9] (initState envAllOk) 4096 rfl rfl⟩

/-! Claims about the network acquirer. -/

/-- C4: when the mode already reports a DHCP acknowledgment, `perform_dhcp`
returns success with the state unchanged — so no `dhcp` broadcast event is
issued — and after any successful `perform_dhcp` a second call is a no-op. -/
theorem perform_dhcp_idempotent (env : Env) (s : FwState) :
    (s.dhcpAck = true → perform_dhcp env s = (.ok (), s))
    ∧ (∀ s1, perform_dhcp env s = (.ok (), s1) → perform_dhcp env s1 = (.ok (), s1)) := by
  constructor
  · intro h
    simp [perform_dhcp, h]
  · intro s1 h
    simp only [perform_dhcp] at h
    split at h
    · rename_i hd
      injection h with h1 h2
      subst h2
      simp [perform_dhcp, hd]
    · rename_i hd
      split at h
      · injection h with h1 h2
        subst h2
        simp [perform_dhcp]
      · exact absurd h (by simp)

/-- C4 witness: with the acknowledgment already present, `perform_dhcp`
returns success and leaves the state untouched. -/
theorem perform_dhcp_idempotent_witness :
    (initState envAllOk).dhcpAck = true
    ∧ perform_dhcp envAllOk (initState envAllOk) = (.ok (), initState envAllOk) :=
  ⟨rfl, (perform_dhcp_idempotent envAllOk (initState envAllOk)).1 rfl⟩

theorem findLoop_result (env : Env) (hs : List Nat) (s : FwState) :
    (findLoop env hs s).1 = (match hs.find? env.openOk with
      | some h => .ok h
      | none => .error .notFound) := by
  induction hs generalizing s with
  | nil => simp [findLoop]
  | cons a rest ih =>
    cases ha : env.openOk a with
    | true =>
      rw [List.find?_cons_of_pos rest ha]
      simp [findLoop, ha]
    | false =>
      rw [List.find?_cons_of_neg rest (by simp [ha])]
      simp only [findLoop, ha]
      simpa using ih (emitS s (.openProtocol a))

theorem findLoop_trace_allfail (env : Env) (hs : List Nat) (s : FwState)
    (h : ∀ x ∈ hs, env.openOk x = false) :
    (findLoop env hs s).2.trace = s.trace ++ hs.map Event.openProtocol := by
  induction hs generalizing s with
  | nil => simp [findLoop]
  | cons a rest ih =>
    have ha : env.openOk a = false := h a (by simp)
    simp only [findLoop, ha]
    rw [if_neg (by simp)]
    rw [ih (emitS s (.openProtocol a)) (fun x hx => h x (by simp [hx]))]
    simp [emitS]

/-- C5: `find_pxebc_proto` returns the first enumerated handle whose
exclusive acquisition succeeds, and `NOT_FOUND` either when zero handles
expose the capability or when acquisition fails for all of them; in the
latter case the trace shows that every enumerated handle was attempted
before giving up, so an individual failure does not abort the scan. -/
theorem find_pxebc_proto_first_success (env : Env) (s : FwState) :
    ((find_pxebc_proto env s).1 = (match env.handles.find? env.openOk with
      | some h => .ok h
      | none => .error .notFound))
    ∧ ((∀ x ∈ env.handles, env.openOk x = false) →
        (find_pxebc_proto env s).2.trace
          = s.trace ++ Event.locateHandles :: env.handles.map Event.openProtocol) := by
  constructor
  · simp only [find_pxebc_proto]
    split
    · rename_i he
      rw [List.isEmpty_iff.1 he]
      simp
    · exact findLoop_result env env.handles _
  · intro h
    simp only [find_pxebc_proto]
    split
    · rename_i he
      rw [List.isEmpty_iff.1 he]
      simp [emitS]
    · rw [findLoop_trace_allfail env env.handles _ h]
      simp [emitS]

/-- C5 witness: two handles, both failing exclusive acquisition: both are
attempted and the result is `NOT_FOUND`. -/
theorem find_pxebc_proto_first_success_witness :
    (∀ x ∈ envNoOpen.handles, envNoOpen.openOk x = false)
    ∧ (find_pxebc_proto envNoOpen (initState envNoOpen)).2.trace
        = (initState envNoOpen).trace
            ++ Event.locateHandles :: envNoOpen.handles.map Event.openProtocol :=
  ⟨by decide,
    (find_pxebc_proto_first_success envNoOpen (initState envNoOpen)).2 (by decide)⟩

/-! Per-step lemmas instantiated to the two run-level event predicates. -/

theorem find_policy (env : Env) (s : FwState) :
    TraceDelta s (find_pxebc_proto env s).2 policyEvent :=
  traceDelta_mono (find_pxebc_proto_traceDelta env s) (fun ev hv => by
    rcases hv with rfl | ⟨x, rfl⟩ <;> simp [policyEvent])

theorem start_policy (env : Env) (s : FwState) :
    TraceDelta s (start_pxe_if_needed env s).2 policyEvent :=
  traceDelta_mono (start_pxe_if_needed_traceDelta env s) (fun ev hv => by
    subst hv; simp [policyEvent])

theorem dhcp_policy (env : Env) (s : FwState) :
    TraceDelta s (perform_dhcp env s).2 policyEvent :=
  traceDelta_mono (perform_dhcp_traceDelta env s) (fun ev hv => by
    subst hv; simp [policyEvent])

theorem download_kernel_policy (env : Env) (s : FwState) :
    TraceDelta s (download_file env "bzImage" (32 <<< 20) s).2 policyEvent :=
  traceDelta_mono (download_file_traceDelta env "bzImage" (32 <<< 20) s) (fun ev hv => by
    rcases hv with rfl | rfl | ⟨k, rfl⟩ | rfl <;> simp [policyEvent])

theorem download_initrd_policy (env : Env) (s : FwState) :
    TraceDelta s (download_file env "initrd" (1024 <<< 20) s).2 policyEvent :=
  traceDelta_mono (download_file_traceDelta env "initrd" (1024 <<< 20) s) (fun ev hv => by
    rcases hv with rfl | rfl | ⟨k, rfl⟩ | rfl <;> simp [policyEvent])

theorem alloc_policy (env : Env) (data : List Nat) (s : FwState) :
    TraceDelta s (alloc_pages_and_copy env data s).2 policyEvent :=
  traceDelta_mono (alloc_pages_and_copy_traceDelta env data s) (fun ev hv => by
    rcases hv with ⟨p, rfl⟩; simp [policyEvent])

theorem install_policy (env : Env) (base size : Nat) (s : FwState) :
    TraceDelta s (install_initrd_config_table env base size s).2 policyEvent :=
  traceDelta_mono (install_initrd_config_table_traceDelta env base size s) (fun ev hv => by
    rcases hv with rfl | ⟨p, rfl⟩ <;> simp [policyEvent])

theorem landst_policy (env : Env) (kd : List Nat) (s : FwState) :
    TraceDelta s (load_and_start_kernel_from_pages env kd s).2 policyEvent :=
  traceDelta_mono (load_and_start_traceDelta env kd s) (fun ev hv => by
    rcases hv with ⟨p, rfl⟩ | rfl | rfl | rfl <;> simp [policyEvent])

theorem run_traceDelta_policy (env : Env) (s : FwState) :
    TraceDelta s (run env s).2 policyEvent := by
  simp only [run]
  split
  · rename_i e s1 heq1
    have d := find_policy env s
    rw [heq1] at d
    exact d
  · rename_i bc s1 heq1
    have c1 : TraceDelta s s1 policyEvent := by
      have d := find_policy env s
      rw [heq1] at d
      exact d
    split
    · rename_i e s2 heq2
      have d := start_policy env s1
      rw [heq2] at d
      exact traceDelta_trans c1 d
    · rename_i s2 heq2
      have c2 : TraceDelta s s2 policyEvent := by
        have d := start_policy env s1
        rw [heq2] at d
        exact traceDelta_trans c1 d
      split
      · rename_i e s3 heq3
        have d := dhcp_policy env s2
        rw [heq3] at d
        exact traceDelta_trans c2 d
      · rename_i s3 heq3
        have c3 : TraceDelta s s3 policyEvent := by
          have d := dhcp_policy env s2
          rw [heq3] at d
          exact traceDelta_trans c2 d
        split
        · rename_i e s4 heq4
          have d := download_kernel_policy env s3
          rw [heq4] at d
          exact traceDelta_trans c3 d
        · rename_i kd s4 heq4
          have c4 : TraceDelta s s4 policyEvent := by
            have d := download_kernel_policy env s3
            rw [heq4] at d
            exact traceDelta_trans c3 d
          split
          · rename_i e s5 heq5
            have d := download_initrd_policy env s4
            rw [heq5] at d
            exact traceDelta_trans c4 d
          · rename_i idata s5 heq5
            have c5 : TraceDelta s s5 policyEvent := by
              have d := download_initrd_policy env s4
              rw [heq5] at d
              exact traceDelta_trans c4 d
            split
            · rename_i e s6 heq6
              have d := alloc_policy env idata s5
              rw [heq6] at d
              exact traceDelta_trans c5 d
            · rename_i ibase s6 heq6
              have c6 : TraceDelta s s6 policyEvent := by
                have d := alloc_policy env idata s5
                rw [heq6] at d
                exact traceDelta_trans c5 d
              split
              · rename_i e s7 heq7
                have d := install_policy env ibase idata.length s6
                rw [heq7] at d
                exact traceDelta_trans c6 d
              · rename_i s7 heq7
                have c7 : TraceDelta s s7 policyEvent := by
                  have d := install_policy env ibase idata.length s6
                  rw [heq7] at d
                  exact traceDelta_trans c6 d
                split
                · rename_i e s8 heq8
                  have d := landst_policy env kd s7
                  rw [heq8] at d
                  exact traceDelta_trans c7 d
                · rename_i s8 heq8
                  have d := landst_policy env kd s7
                  rw [heq8] at d
                  exact traceDelta_trans c7 d

theorem setup_kernel_options_ok_mem (env : Env) (kh : Nat) (s s' : FwState)
    (h : setup_kernel_options env kh s = (.ok (), s')) :
    Event.setLoadOptions KERNEL_OPTS KERNEL_OPTS_NUM_BYTES ∈ s'.trace := by
  simp only [setup_kernel_options] at h
  split at h
  · exact absurd h (by simp)
  · injection h with h1 h2
    subst h2
    simp [emitS]

theorem load_and_start_ok_setopts (env : Env) (kd : List Nat) (s s' : FwState)
    (h : load_and_start_kernel_from_pages env kd s = (.ok (), s')) :
    Event.setLoadOptions KERNEL_OPTS KERNEL_OPTS_NUM_BYTES ∈ s'.trace := by
  simp only [load_and_start_kernel_from_pages] at h
  split at h
  · exact absurd h (by simp)
  · rename_i addr s1 heq
    split at h
    · exact absurd h (by simp)
    · rename_i kh heqL
      split at h
      · exact absurd h (by simp)
      · rename_i s2 heqS
        split at h
        · exact absurd h (by simp)
        · injection h with h1 h2
          subst h2
          have hm := setup_kernel_options_ok_mem env kh _ _ heqS
          simp only [emitS_trace]
          exact List.mem_append_left _ hm

theorem run_success_mems (env : Env) (s : FwState) (st : Status) (s' : FwState)
    (h : run env s = (.ok st, s')) :
    Event.download "bzImage" (32 <<< 20) ∈ s'.trace
    ∧ Event.download "initrd" (1024 <<< 20) ∈ s'.trace
    ∧ Event.setLoadOptions KERNEL_OPTS KERNEL_OPTS_NUM_BYTES ∈ s'.trace := by
  simp only [run] at h
  split at h
  · exact absurd h (by simp)
  · rename_i bc s1 heq1
    split at h
    · exact absurd h (by simp)
    · rename_i s2 heq2
      split at h
      · exact absurd h (by simp)
      · rename_i s3 heq3
        split at h
        · exact absurd h (by simp)
        · rename_i kd s4 heq4
          split at h
          · exact absurd h (by simp)
          · rename_i idata s5 heq5
            split at h
            · exact absurd h (by simp)
            · rename_i ibase s6 heq6
              split at h
              · exact absurd h (by simp)
              · rename_i s7 heq7
                split at h
                · exact absurd h (by simp)
                · rename_i s8 heq8
                  injection h with h1 h2
                  subst h2
                  have d5 := download_file_traceDelta env "initrd" (1024 <<< 20) s4
                  rw [heq5] at d5
                  have d6 := alloc_pages_and_copy_traceDelta env idata s5
                  rw [heq6] at d6
                  have d7 := install_initrd_config_table_traceDelta env ibase idata.length s6
                  rw [heq7] at d7
                  have d8 := load_and_start_traceDelta env kd s7
                  rw [heq8] at d8
                  refine ⟨?_, ?_, ?_⟩
                  · have m1 : Event.download "bzImage" (32 <<< 20) ∈ s4.trace := by
                      have := download_file_mem_download env "bzImage" (32 <<< 20) s3
                      rw [heq4] at this
                      exact this
                    exact traceDelta_mem d8 (traceDelta_mem d7 (traceDelta_mem d6
                      (traceDelta_mem d5 m1)))
                  · have m2 : Event.download "initrd" (1024 <<< 20) ∈ s5.trace := by
                      have := download_file_mem_download env "initrd" (1024 <<< 20) s4
                      rw [heq5] at this
                      exact this
                    exact traceDelta_mem d8 (traceDelta_mem d7 (traceDelta_mem d6 m2))
                  · exact load_and_start_ok_setopts env kd s7 s8 heq8

/-- C6: the top-level `run` fetches with exactly the fixed policy constants:
every download event it emits targets `bzImage` with a 32 MiB cap or
`initrd` with a 1 GiB cap, every load-options event carries the compile-time
constant `KERNEL_OPTS` command line, and a successful run did fetch the
kernel under the 32 MiB cap, the ramdisk under the 1 GiB cap, and attached
`KERNEL_OPTS` to the loaded image. -/
theorem run_policy_constants (env : Env) (s : FwState) :
    TraceDelta s (run env s).2 policyEvent
    ∧ (32 <<< 20 : Nat) = 32 * 1024 * 1024
    ∧ (1024 <<< 20 : Nat) = 1024 * 1024 * 1024
    ∧ (∀ st, (run env s).1 = .ok st →
        Event.download "bzImage" (32 <<< 20) ∈ (run env s).2.trace
        ∧ Event.download "initrd" (1024 <<< 20) ∈ (run env s).2.trace
        ∧ Event.setLoadOptions KERNEL_OPTS KERNEL_OPTS_NUM_BYTES ∈ (run env s).2.trace) := by
  refine ⟨run_traceDelta_policy env s, by decide, by decide, ?_⟩
  intro st hr
  have h : run env s = (.ok st, (run env s).2) := by
    rw [← hr]
  exact run_success_mems env s st _ h

/-- C6 witness: in the all-success environment `run` succeeds and its trace
contains the two policy-capped downloads and the constant load options. -/
theorem run_policy_constants_witness :
    (run envAllOk (initState envAllOk)).1 = .ok .success
    ∧ Event.download "bzImage" (32 <<< 20) ∈ (run envAllOk (initState envAllOk)).2.trace
    ∧ Event.download "initrd" (1024 <<< 20) ∈ (run envAllOk (initState envAllOk)).2.trace
    ∧ Event.setLoadOptions KERNEL_OPTS KERNEL_OPTS_NUM_BYTES
        ∈ (run envAllOk (initState envAllOk)).2.trace :=
  ⟨rfl, (run_policy_constants envAllOk (initState envAllOk)).2.2.2 .success rfl⟩

/-! Mode-field preservation and success-condition extraction, used to settle
the first-failure claim at every failure point. -/

theorem findLoop_mode (env : Env) (hs : List Nat) (s : FwState) :
    ((findLoop env hs s).2).started = s.started
    ∧ ((findLoop env hs s).2).dhcpAck = s.dhcpAck := by
  induction hs generalizing s with
  | nil => exact ⟨rfl, rfl⟩
  | cons a rest ih =>
    simp only [findLoop]
    split
    · exact ⟨rfl, rfl⟩
    · exact ih (emitS s (.openProtocol a))

theorem find_pxebc_proto_mode (env : Env) (s : FwState) :
    ((find_pxebc_proto env s).2).started = s.started
    ∧ ((find_pxebc_proto env s).2).dhcpAck = s.dhcpAck := by
  simp only [find_pxebc_proto]
  split
  · exact ⟨rfl, rfl⟩
  · exact findLoop_mode env env.handles (emitS s .locateHandles)

theorem start_pxe_if_needed_dhcpAck (env : Env) (s : FwState) :
    ((start_pxe_if_needed env s).2).dhcpAck = s.dhcpAck := by
  simp only [start_pxe_if_needed]
  split
  · rfl
  · split
    · rfl
    · rfl

theorem find_pxebc_proto_result (env : Env) (s : FwState) :
    (find_pxebc_proto env s).1 = (match env.handles.find? env.openOk with
      | some h => .ok h
      | none => .error .notFound) := by
  simp only [find_pxebc_proto]
  split
  · rename_i he
    rw [List.isEmpty_iff.1 he]
    simp
  · exact findLoop_result env env.handles _

theorem find_ok_oracle (env : Env) (s : FwState) (bc : Nat) (s1 : FwState)
    (heq : find_pxebc_proto env s = (.ok bc, s1))
    (hall : ∀ x ∈ env.handles, env.openOk x = false) : False := by
  have hr := find_pxebc_proto_result env s
  rw [heq] at hr
  rw [List.find?_eq_none.2 (fun x hx => by simp [hall x hx])] at hr
  simp at hr

theorem start_ok_oracle (env : Env) (s1 s2 : FwState)
    (heq : start_pxe_if_needed env s1 = (.ok (), s2)) (hs : s1.started = false) :
    env.startResult = .ok () := by
  simp only [start_pxe_if_needed, hs] at heq
  rw [if_neg (by simp)] at heq
  split at heq
  · rename_i hres
    exact hres
  · exact absurd heq (by simp)

theorem dhcp_ok_oracle (env : Env) (s2 s3 : FwState)
    (heq : perform_dhcp env s2 = (.ok (), s3)) (hd : s2.dhcpAck = false) :
    env.dhcpResult = .ok () := by
  simp only [perform_dhcp, hd] at heq
  rw [if_neg (by simp)] at heq
  split at heq
  · rename_i hres
    exact hres
  · exact absurd heq (by simp)

theorem allocatePagesFw_ok_oracle (env : Env) (ty : AllocateType) (mt : MemoryType)
    (pages : Nat) (s : FwState) (addr : Nat) (s1 : FwState)
    (heq : allocatePagesFw env ty mt pages s = (.ok addr, s1)) :
    env.allocOk s.allocCount = true := by
  simp only [allocatePagesFw] at heq
  split at heq
  · rename_i hc
    exact hc
  · exact absurd heq (by simp)

theorem alloc_ok_oracle (env : Env) (data : List Nat) (s : FwState) (addr : Nat)
    (s1 : FwState) (heq : alloc_pages_and_copy env data s = (.ok addr, s1)) :
    env.allocOk s.allocCount = true := by
  simp only [alloc_pages_and_copy] at heq
  split at heq
  · exact absurd heq (by simp)
  · rename_i a s2 heqA
    exact allocatePagesFw_ok_oracle env _ _ _ s a s2 heqA

theorem install_ok_oracle (env : Env) (base size : Nat) (s s' : FwState)
    (h : install_initrd_config_table env base size s = (.ok (), s')) :
    env.installTableResult = .ok () := by
  simp only [install_initrd_config_table] at h
  split at h
  · exact absurd h (by simp)
  · split at h
    · exact absurd h (by simp)
    · rename_i heqI
      exact heqI

theorem landst_ok_load_oracle (env : Env) (kd : List Nat) (s s' : FwState)
    (h : load_and_start_kernel_from_pages env kd s = (.ok (), s')) :
    ∃ kh, env.loadImageResult = .ok kh := by
  simp only [load_and_start_kernel_from_pages] at h
  split at h
  · exact absurd h (by simp)
  · split at h
    · exact absurd h (by simp)
    · rename_i kh heqL
      exact ⟨kh, heqL⟩

theorem landst_ok_setup_oracle (env : Env) (kd : List Nat) (s s' : FwState)
    (h : load_and_start_kernel_from_pages env kd s = (.ok (), s')) :
    ∃ kh, env.loadedImageOpen kh = .ok () := by
  simp only [load_and_start_kernel_from_pages] at h
  split at h
  · exact absurd h (by simp)
  · split at h
    · exact absurd h (by simp)
    · rename_i kh heqL
      split at h
      · exact absurd h (by simp)
      · rename_i s2 heqS
        simp only [setup_kernel_options] at heqS
        split at heqS
        · exact absurd heqS (by simp)
        · rename_i heqO
          exact ⟨kh, heqO⟩

/-! Rank-bounded trace deltas for each pipeline step. -/

theorem find_rank (env : Env) (s : FwState) :
    TraceDelta s (find_pxebc_proto env s).2 (fun ev => eventRank ev ≤ 1) :=
  traceDelta_mono (find_pxebc_proto_traceDelta env s) (fun ev hv => by
    rcases hv with rfl | ⟨x, rfl⟩ <;> simp [eventRank])

theorem start_rank (env : Env) (s : FwState) :
    TraceDelta s (start_pxe_if_needed env s).2 (fun ev => eventRank ev ≤ 2) :=
  traceDelta_mono (start_pxe_if_needed_traceDelta env s) (fun ev hv => by
    subst hv; simp [eventRank])

theorem dhcp_rank (env : Env) (s : FwState) :
    TraceDelta s (perform_dhcp env s).2 (fun ev => eventRank ev ≤ 3) :=
  traceDelta_mono (perform_dhcp_traceDelta env s) (fun ev hv => by
    subst hv; simp [eventRank])

theorem download_kernel_rank (env : Env) (s : FwState) :
    TraceDelta s (download_file env "bzImage" (32 <<< 20) s).2
      (fun ev => eventRank ev ≤ 4) :=
  traceDelta_mono (download_file_traceDelta env "bzImage" (32 <<< 20) s) (fun ev hv => by
    rcases hv with rfl | rfl | ⟨k, rfl⟩ | rfl <;> simp [eventRank])

theorem download_initrd_rank (env : Env) (s : FwState) :
    TraceDelta s (download_file env "initrd" (1024 <<< 20) s).2
      (fun ev => eventRank ev ≤ 5) :=
  traceDelta_mono (download_file_traceDelta env "initrd" (1024 <<< 20) s) (fun ev hv => by
    rcases hv with rfl | rfl | ⟨k, rfl⟩ | rfl <;> simp [eventRank])

theorem alloc_rank (env : Env) (data : List Nat) (s : FwState) :
    TraceDelta s (alloc_pages_and_copy env data s).2 (fun ev => eventRank ev ≤ 6) :=
  traceDelta_mono (alloc_pages_and_copy_traceDelta env data s) (fun ev hv => by
    rcases hv with ⟨p, rfl⟩; simp [eventRank])

theorem install_rank (env : Env) (base size : Nat) (s : FwState) :
    TraceDelta s (install_initrd_config_table env base size s).2
      (fun ev => eventRank ev ≤ 7) :=
  traceDelta_mono (install_initrd_config_table_traceDelta env base size s) (fun ev hv => by
    rcases hv with rfl | ⟨p, rfl⟩ <;> simp [eventRank])

/-- A failing image load keeps the loader's trace below the options stage:
only the staging allocation and the load call itself happen. -/
theorem landst_rank_loadfail (env : Env) (kd : List Nat) (s : FwState) (e : Status)
    (hL : env.loadImageResult = .error e) :
    TraceDelta s (load_and_start_kernel_from_pages env kd s).2
      (fun ev => eventRank ev ≤ 8) := by
  simp only [load_and_start_kernel_from_pages]
  split
  · rename_i e1 s1 heq
    have h := alloc_pages_and_copy_traceDelta env kd s
    rw [heq] at h
    exact traceDelta_mono h (fun ev hv => by rcases hv with ⟨p, rfl⟩; simp [eventRank])
  · rename_i addr s1 heq
    have h := alloc_pages_and_copy_traceDelta env kd s
    rw [heq] at h
    have h1 : TraceDelta s s1 (fun ev => eventRank ev ≤ 8) :=
      traceDelta_mono h (fun ev hv => by rcases hv with ⟨p, rfl⟩; simp [eventRank])
    have h2 := traceDelta_trans h1
      (traceDelta_emit s1 Event.loadImage (by simp [eventRank]))
    rw [hL]
    exact h2

/-- A failing `LoadedImage` open keeps the loader's trace below the options
stage as well: no options are attached and the image is never started. -/
theorem landst_rank_setupfail (env : Env) (kd : List Nat) (s : FwState) (e : Status)
    (hO : ∀ h', env.loadedImageOpen h' = .error e) :
    TraceDelta s (load_and_start_kernel_from_pages env kd s).2
      (fun ev => eventRank ev ≤ 8) := by
  simp only [load_and_start_kernel_from_pages]
  split
  · rename_i e1 s1 heq
    have h := alloc_pages_and_copy_traceDelta env kd s
    rw [heq] at h
    exact traceDelta_mono h (fun ev hv => by rcases hv with ⟨p, rfl⟩; simp [eventRank])
  · rename_i addr s1 heq
    have h := alloc_pages_and_copy_traceDelta env kd s
    rw [heq] at h
    have h1 : TraceDelta s s1 (fun ev => eventRank ev ≤ 8) :=
      traceDelta_mono h (fun ev hv => by rcases hv with ⟨p, rfl⟩; simp [eventRank])
    have h2 := traceDelta_trans h1
      (traceDelta_emit s1 Event.loadImage (by simp [eventRank]))
    split
    · exact h2
    · rename_i kh heqL
      have hs : setup_kernel_options env kh (emitS s1 Event.loadImage)
          = (.error e, emitS s1 Event.loadImage) := by
        simp [setup_kernel_options, hO kh]
      rw [hs]
      exact h2

/-- C8: the pipeline halts at the first failure, whichever step fails.
Each conjunct fixes one failure point — protocol discovery (no handle can be
acquired), PXE start, DHCP, the kernel fetch, the ramdisk fetch, the staging
allocation, the configuration-table installation, the image load, and the
`LoadedImage` open for attaching options — and bounds every event of the
whole run by that step's pipeline stage (`eventRank`).  In particular, a
failing kernel fetch (stage 4) means the ramdisk is never queried or
transferred, no pages are allocated, no table entry is installed and no
image is loaded or started: no later pipeline step executes after any
earlier step returns an error. -/
theorem run_halts_at_first_failure (env : Env) (s : FwState) :
    ((∀ x ∈ env.handles, env.openOk x = false) →
        TraceDelta s (run env s).2 (fun ev => eventRank ev ≤ 1))
    ∧ (∀ e, s.started = false → env.startResult = .error e →
        TraceDelta s (run env s).2 (fun ev => eventRank ev ≤ 2))
    ∧ (∀ e, s.dhcpAck = false → env.dhcpResult = .error e →
        TraceDelta s (run env s).2 (fun ev => eventRank ev ≤ 3))
    ∧ (∀ e, (∀ s0, (download_file env "bzImage" (32 <<< 20) s0).1 = .error e) →
        TraceDelta s (run env s).2 (fun ev => eventRank ev ≤ 4))
    ∧ (∀ e, (∀ s0, (download_file env "initrd" (1024 <<< 20) s0).1 = .error e) →
        TraceDelta s (run env s).2 (fun ev => eventRank ev ≤ 5))
    ∧ ((∀ n, env.allocOk n = false) →
        TraceDelta s (run env s).2 (fun ev => eventRank ev ≤ 6))
    ∧ (∀ e, env.installTableResult = .error e →
        TraceDelta s (run env s).2 (fun ev => eventRank ev ≤ 7))
    ∧ (∀ e, env.loadImageResult = .error e →
        TraceDelta s (run env s).2 (fun ev => eventRank ev ≤ 8))
    ∧ (∀ e, (∀ h', env.loadedImageOpen h' = .error e) →
        TraceDelta s (run env s).2 (fun ev => eventRank ev ≤ 8)) := by
  cases hf : find_pxebc_proto env s with
  | mk r1 s1 =>
  cases r1 with
  | error e1 =>
    have c1 : TraceDelta s s1 (fun ev => eventRank ev ≤ 1) := by
      have d := find_rank env s
      rw [hf] at d
      exact d
    have hrun : run env s = (.error e1, s1) := by
      simp only [run, hf]
    refine ⟨fun _ => ?_, fun e hs0 he => ?_, fun e hd0 he => ?_, fun e h => ?_,
      fun e h => ?_, fun h => ?_, fun e h => ?_, fun e h => ?_, fun e h => ?_⟩
    all_goals (rw [hrun]; exact traceDelta_mono c1 (fun ev hv => le_trans hv (by norm_num)))
  | ok bc =>
    have c1 : TraceDelta s s1 (fun ev => eventRank ev ≤ 1) := by
      have d := find_rank env s
      rw [hf] at d
      exact d
    have hps : s1.started = s.started := by
      have d := (find_pxebc_proto_mode env s).1
      rw [hf] at d
      exact d
    have hpd : s1.dhcpAck = s.dhcpAck := by
      have d := (find_pxebc_proto_mode env s).2
      rw [hf] at d
      exact d
    cases hst : start_pxe_if_needed env s1 with
    | mk r2 s2 =>
    cases r2 with
    | error e2 =>
      have c2 : TraceDelta s s2 (fun ev => eventRank ev ≤ 2) := by
        have d := start_rank env s1
        rw [hst] at d
        exact traceDelta_trans
          (traceDelta_mono c1 (fun ev hv => le_trans hv (by norm_num))) d
      have hrun : run env s = (.error e2, s2) := by
        simp only [run, hf, hst]
      refine ⟨?_, fun e hs0 he => ?_, fun e hd0 he => ?_, fun e h => ?_,
        fun e h => ?_, fun h => ?_, fun e h => ?_, fun e h => ?_, fun e h => ?_⟩
      · intro hall
        exact (find_ok_oracle env s bc s1 hf hall).elim
      all_goals (rw [hrun]; exact traceDelta_mono c2 (fun ev hv => le_trans hv (by norm_num)))
    | ok u =>
    cases u
    have hpd2 : s2.dhcpAck = s1.dhcpAck := by
      have d := start_pxe_if_needed_dhcpAck env s1
      rw [hst] at d
      exact d
    cases hdh : perform_dhcp env s2 with
    | mk r3 s3 =>
    cases r3 with
    | error e3 =>
      have c2 : TraceDelta s s2 (fun ev => eventRank ev ≤ 2) := by
        have d := start_rank env s1
        rw [hst] at d
        exact traceDelta_trans
          (traceDelta_mono c1 (fun ev hv => le_trans hv (by norm_num))) d
      have c3 : TraceDelta s s3 (fun ev => eventRank ev ≤ 3) := by
        have d := dhcp_rank env s2
        rw [hdh] at d
        exact traceDelta_trans
          (traceDelta_mono c2 (fun ev hv => le_trans hv (by norm_num))) d
      have hrun : run env s = (.error e3, s3) := by
        simp only [run, hf, hst, hdh]
      refine ⟨?_, ?_, fun e hd0 he => ?_, fun e h => ?_,
        fun e h => ?_, fun h => ?_, fun e h => ?_, fun e h => ?_, fun e h => ?_⟩
      · intro hall
        exact (find_ok_oracle env s bc s1 hf hall).elim
      · intro e hs0 he
        have hres := start_ok_oracle env s1 s2 hst (by rw [hps]; exact hs0)
        rw [he] at hres
        exact absurd hres (by simp)
      all_goals (rw [hrun]; exact traceDelta_mono c3 (fun ev hv => le_trans hv (by norm_num)))
    | ok u =>
    cases u
    have c2 : TraceDelta s s2 (fun ev => eventRank ev ≤ 2) := by
      have d := start_rank env s1
      rw [hst] at d
      exact traceDelta_trans
        (traceDelta_mono c1 (fun ev hv => le_trans hv (by norm_num))) d
    have c3 : TraceDelta s s3 (fun ev => eventRank ev ≤ 3) := by
      have d := dhcp_rank env s2
      rw [hdh] at d
      exact traceDelta_trans
        (traceDelta_mono c2 (fun ev hv => le_trans hv (by norm_num))) d
    cases hk : download_file env "bzImage" (32 <<< 20) s3 with
    | mk r4 s4 =>
    cases r4 with
    | error e4 =>
      have c4 : TraceDelta s s4 (fun ev => eventRank ev ≤ 4) := by
        have d := download_kernel_rank env s3
        rw [hk] at d
        exact traceDelta_trans
          (traceDelta_mono c3 (fun ev hv => le_trans hv (by norm_num))) d
      have hrun : run env s = (.error e4, s4) := by
        simp only [run, hf, hst, hdh, hk]
      refine ⟨?_, ?_, ?_, fun e h => ?_,
        fun e h => ?_, fun h => ?_, fun e h => ?_, fun e h => ?_, fun e h => ?_⟩
      · intro hall
        exact (find_ok_oracle env s bc s1 hf hall).elim
      · intro e hs0 he
        have hres := start_ok_oracle env s1 s2 hst (by rw [hps]; exact hs0)
        rw [he] at hres
        exact absurd hres (by simp)
      · intro e hd0 he
        have hres := dhcp_ok_oracle env s2 s3 hdh (by rw [hpd2, hpd]; exact hd0)
        rw [he] at hres
        exact absurd hres (by simp)
      all_goals (rw [hrun]; exact traceDelta_mono c4 (fun ev hv => le_trans hv (by norm_num)))
    | ok kd =>
    cases hi : download_file env "initrd" (1024 <<< 20) s4 with
    | mk r5 s5 =>
    cases r5 with
    | error e5 =>
      have c4 : TraceDelta s s4 (fun ev => eventRank ev ≤ 4) := by
        have d := download_kernel_rank env s3
        rw [hk] at d
        exact traceDelta_trans
          (traceDelta_mono c3 (fun ev hv => le_trans hv (by norm_num))) d
      have c5 : TraceDelta s s5 (fun ev => eventRank ev ≤ 5) := by
        have d := download_initrd_rank env s4
        rw [hi] at d
        exact traceDelta_trans
          (traceDelta_mono c4 (fun ev hv => le_trans hv (by norm_num))) d
      have hrun : run env s = (.error e5, s5) := by
        simp only [run, hf, hst, hdh, hk, hi]
      refine ⟨?_, ?_, ?_, ?_,
        fun e h => ?_, fun h => ?_, fun e h => ?_, fun e h => ?_, fun e h => ?_⟩
      · intro hall
        exact (find_ok_oracle env s bc s1 hf hall).elim
      · intro e hs0 he
        have hres := start_ok_oracle env s1 s2 hst (by rw [hps]; exact hs0)
        rw [he] at hres
        exact absurd hres (by simp)
      · intro e hd0 he
        have hres := dhcp_ok_oracle env s2 s3 hdh (by rw [hpd2, hpd]; exact hd0)
        rw [he] at hres
        exact absurd hres (by simp)
      · intro e hfail
        have h0 := hfail s3
        rw [hk] at h0
        exact absurd h0 (by simp)
      all_goals (rw [hrun]; exact traceDelta_mono c5 (fun ev hv => le_trans hv (by norm_num)))
    | ok idata =>
    have c4 : TraceDelta s s4 (fun ev => eventRank ev ≤ 4) := by
      have d := download_kernel_rank env s3
      rw [hk] at d
      exact traceDelta_trans
        (traceDelta_mono c3 (fun ev hv => le_trans hv (by norm_num))) d
    have c5 : TraceDelta s s5 (fun ev => eventRank ev ≤ 5) := by
      have d := download_initrd_rank env s4
      rw [hi] at d
      exact traceDelta_trans
        (traceDelta_mono c4 (fun ev hv => le_trans hv (by norm_num))) d
    cases ha : alloc_pages_and_copy env idata s5 with
    | mk r6 s6 =>
    cases r6 with
    | error e6 =>
      have c6 : TraceDelta s s6 (fun ev => eventRank ev ≤ 6) := by
        have d := alloc_rank env idata s5
        rw [ha] at d
        exact traceDelta_trans
          (traceDelta_mono c5 (fun ev hv => le_trans hv (by norm_num))) d
      have hrun : run env s = (.error e6, s6) := by
        simp only [run, hf, hst, hdh, hk, hi, ha]
      refine ⟨?_, ?_, ?_, ?_, ?_,
        fun h => ?_, fun e h => ?_, fun e h => ?_, fun e h => ?_⟩
      · intro hall
        exact (find_ok_oracle env s bc s1 hf hall).elim
      · intro e hs0 he
        have hres := start_ok_oracle env s1 s2 hst (by rw [hps]; exact hs0)
        rw [he] at hres
        exact absurd hres (by simp)
      · intro e hd0 he
        have hres := dhcp_ok_oracle env s2 s3 hdh (by rw [hpd2, hpd]; exact hd0)
        rw [he] at hres
        exact absurd hres (by simp)
      · intro e hfail
        have h0 := hfail s3
        rw [hk] at h0
        exact absurd h0 (by simp)
      · intro e hfail
        have h0 := hfail s4
        rw [hi] at h0
        exact absurd h0 (by simp)
      all_goals (rw [hrun]; exact traceDelta_mono c6 (fun ev hv => le_trans hv (by norm_num)))
    | ok ibase =>
    have c6 : TraceDelta s s6 (fun ev => eventRank ev ≤ 6) := by
      have d := alloc_rank env idata s5
      rw [ha] at d
      exact traceDelta_trans
        (traceDelta_mono c5 (fun ev hv => le_trans hv (by norm_num))) d
    cases hins : install_initrd_config_table env ibase idata.length s6 with
    | mk r7 s7 =>
    cases r7 with
    | error e7 =>
      have c7 : TraceDelta s s7 (fun ev => eventRank ev ≤ 7) := by
        have d := install_rank env ibase idata.length s6
        rw [hins] at d
        exact traceDelta_trans
          (traceDelta_mono c6 (fun ev hv => le_trans hv (by norm_num))) d
      have hrun : run env s = (.error e7, s7) := by
        simp only [run, hf, hst, hdh, hk, hi, ha, hins]
      refine ⟨?_, ?_, ?_, ?_, ?_, ?_,
        fun e h => ?_, fun e h => ?_, fun e h => ?_⟩
      · intro hall
        exact (find_ok_oracle env s bc s1 hf hall).elim
      · intro e hs0 he
        have hres := start_ok_oracle env s1 s2 hst (by rw [hps]; exact hs0)
        rw [he] at hres
        exact absurd hres (by simp)
      · intro e hd0 he
        have hres := dhcp_ok_oracle env s2 s3 hdh (by rw [hpd2, hpd]; exact hd0)
        rw [he] at hres
        exact absurd hres (by simp)
      · intro e hfail
        have h0 := hfail s3
        rw [hk] at h0
        exact absurd h0 (by simp)
      · intro e hfail
        have h0 := hfail s4
        rw [hi] at h0
        exact absurd h0 (by simp)
      · intro hallc
        have h0 := alloc_ok_oracle env idata s5 ibase s6 ha
        rw [hallc s5.allocCount] at h0
        exact absurd h0 (by simp)
      all_goals (rw [hrun]; exact traceDelta_mono c7 (fun ev hv => le_trans hv (by norm_num)))
    | ok u =>
    cases u
    have c7 : TraceDelta s s7 (fun ev => eventRank ev ≤ 7) := by
      have d := install_rank env ibase idata.length s6
      rw [hins] at d
      exact traceDelta_trans
        (traceDelta_mono c6 (fun ev hv => le_trans hv (by norm_num))) d
    cases hls : load_and_start_kernel_from_pages env kd s7 with
    | mk r8 s8 =>
    cases r8 with
    | error e8 =>
      have hrun : run env s = (.error e8, s8) := by
        simp only [run, hf, hst, hdh, hk, hi, ha, hins, hls]
      refine ⟨?_, ?_, ?_, ?_, ?_, ?_, ?_, ?_, ?_⟩
      · intro hall
        exact (find_ok_oracle env s bc s1 hf hall).elim
      · intro e hs0 he
        have hres := start_ok_oracle env s1 s2 hst (by rw [hps]; exact hs0)
        rw [he] at hres
        exact absurd hres (by simp)
      · intro e hd0 he
        have hres := dhcp_ok_oracle env s2 s3 hdh (by rw [hpd2, hpd]; exact hd0)
        rw [he] at hres
        exact absurd hres (by simp)
      · intro e hfail
        have h0 := hfail s3
        rw [hk] at h0
        exact absurd h0 (by simp)
      · intro e hfail
        have h0 := hfail s4
        rw [hi] at h0
        exact absurd h0 (by simp)
      · intro hallc
        have h0 := alloc_ok_oracle env idata s5 ibase s6 ha
        rw [hallc s5.allocCount] at h0
        exact absurd h0 (by simp)
      · intro e hinst
        have h0 := install_ok_oracle env ibase idata.length s6 s7 hins
        rw [hinst] at h0
        exact absurd h0 (by simp)
      · intro e hL
        have d := landst_rank_loadfail env kd s7 e hL
        rw [hls] at d
        rw [hrun]
        exact traceDelta_trans
          (traceDelta_mono c7 (fun ev hv => le_trans hv (by norm_num))) d
      · intro e hO
        have d := landst_rank_setupfail env kd s7 e hO
        rw [hls] at d
        rw [hrun]
        exact traceDelta_trans
          (traceDelta_mono c7 (fun ev hv => le_trans hv (by norm_num))) d
    | ok u =>
      cases u
      refine ⟨?_, ?_, ?_, ?_, ?_, ?_, ?_, ?_, ?_⟩
      · intro hall
        exact (find_ok_oracle env s bc s1 hf hall).elim
      · intro e hs0 he
        have hres := start_ok_oracle env s1 s2 hst (by rw [hps]; exact hs0)
        rw [he] at hres
        exact absurd hres (by simp)
      · intro e hd0 he
        have hres := dhcp_ok_oracle env s2 s3 hdh (by rw [hpd2, hpd]; exact hd0)
        rw [he] at hres
        exact absurd hres (by simp)
      · intro e hfail
        have h0 := hfail s3
        rw [hk] at h0
        exact absurd h0 (by simp)
      · intro e hfail
        have h0 := hfail s4
        rw [hi] at h0
        exact absurd h0 (by simp)
      · intro hallc
        have h0 := alloc_ok_oracle env idata s5 ibase s6 ha
        rw [hallc s5.allocCount] at h0
        exact absurd h0 (by simp)
      · intro e hinst
        have h0 := install_ok_oracle env ibase idata.length s6 s7 hins
        rw [hinst] at h0
        exact absurd h0 (by simp)
      · intro e hL
        obtain ⟨kh, hk2⟩ := landst_ok_load_oracle env kd s7 s8 hls
        rw [hL] at hk2
        exact absurd hk2 (by simp)
      · intro e hO
        obtain ⟨kh, hk2⟩ := landst_ok_setup_oracle env kd s7 s8 hls
        rw [hO kh] at hk2
        exact absurd hk2 (by simp)

/-- C8 witness: two instantiations — a 40 MiB kernel against the 32 MiB cap
keeps the whole run at or below the kernel-fetch stage, and a failing
configuration-table installation keeps it at or below the installation
stage (no image load, options attach or start). -/
theorem run_halts_at_first_failure_witness :
    (∀ s0, (download_file envKernelTooBig "bzImage" (32 <<< 20) s0).1 = .error .aborted)
    ∧ TraceDelta (initState envKernelTooBig)
        (run envKernelTooBig (initState envKernelTooBig)).2 (fun ev => eventRank ev ≤ 4)
    ∧ envInstallFail.installTableResult = .error .outOfResources
    ∧ TraceDelta (initState envInstallFail)
        (run envInstallFail (initState envInstallFail)).2 (fun ev => eventRank ev ≤ 7) :=
  ⟨fun _ => rfl,
    (run_halts_at_first_failure envKernelTooBig
      (initState envKernelTooBig)).2.2.2.1 .aborted (fun _ => rfl),
    rfl,
    (run_halts_at_first_failure envInstallFail
      (initState envInstallFail)).2.2.2.2.2.2.1 .outOfResources rfl⟩

end Bootloader
